import Mathlib

/-!
PulseChain core: a shallow embedding of the pulse (proof-of-history)
generator, the slot consensus state machine, the heartbeat protocol and the
region sync plane, translated from `pulsechain/core/poh_generator.py`,
`pulsechain/consensus/poh.py`, `pulsechain/network/heartbeat.py`,
`pulsechain/network/region_sync.py` and `pulsechain/core/region_manager.py`.

Conventions of the embedding:
* byte strings are `List Nat` with each element < 256;
* Python `int` is `Int` (arbitrary precision); `int.to_bytes(8, ...)` raises
  `OverflowError` outside `[0, 2^64)`, modelled by `Option`/`Except`;
* Python `float` quantities (timestamps, stakes, scores) are `ℚ`;
* Python `set`/`dict` are association lists with set-style insertion,
  preserving CPython's insertion order;
* methods that can raise return `Except String α`; the error string names the
  Python exception class;
* SHA-256 is implemented concretely (FIPS 180-4) so that digest-level claims
  are decidable.
-/

namespace PulseChain

/-! ### Bytes and 32-bit words -/

/-- 2^32, the modulus of SHA-256 word arithmetic. -/
def M32 : Nat := 4294967296

/-- Right rotation of a 32-bit word. -/
def rotr (n x : Nat) : Nat := ((x >>> n) ||| (x <<< (32 - n))) % M32

/-- Bitwise complement of a 32-bit word. -/
def compl32 (x : Nat) : Nat := x ^^^ 4294967295

/-- Little-endian 8-byte encoding of a `Nat` (the total core used once the
`OverflowError` range check has been made). -/
def natToLE8 (n : Nat) : List Nat :=
  [n % 256, n / 256 % 256, n / 65536 % 256, n / 16777216 % 256,
   n / 4294967296 % 256, n / 1099511627776 % 256,
   n / 281474976710656 % 256, n / 72057594037927936 % 256]

/-- Python `int.to_bytes(8, 'little')`: defined only on `[0, 2^64)`,
otherwise the call raises `OverflowError`. -/
def intToLE8 (n : Int) : Option (List Nat) :=
  if 0 ≤ n ∧ n < 18446744073709551616 then some (natToLE8 n.toNat) else none

/-- Python `int.from_bytes(bs, 'little')`. -/
def natFromLE (bs : List Nat) : Nat :=
  match bs with
  | [] => 0
  | b :: rest => b + 256 * natFromLE rest

/-- Big-endian 4-byte encoding of a 32-bit word. -/
def wordBE4 (x : Nat) : List Nat :=
  [x / 16777216 % 256, x / 65536 % 256, x / 256 % 256, x % 256]

/-- Big-endian 8-byte encoding (used for the SHA-256 length field). -/
def natToBE8 (n : Nat) : List Nat :=
  [n / 72057594037927936 % 256, n / 281474976710656 % 256,
   n / 1099511627776 % 256, n / 4294967296 % 256,
   n / 16777216 % 256, n / 65536 % 256, n / 256 % 256, n % 256]

/-- The bytes of an ASCII string (all source strings are ASCII, where UTF-8
bytes and code points coincide). -/
def strBytes (s : String) : List Nat := s.data.map Char.toNat

/-! ### SHA-256 (FIPS 180-4) -/

/-- The 64 SHA-256 round constants. -/
def shaK : List Nat :=
  [1116352408, 1899447441, 3049323471, 3921009573, 961987163, 1508970993,
   2453635748, 2870763221, 3624381080, 310598401, 607225278, 1426881987,
   1925078388, 2162078206, 2614888103, 3248222580, 3835390401, 4022224774,
   264347078, 604807628, 770255983, 1249150122, 1555081692, 1996064986,
   2554220882, 2821834349, 2952996808, 3210313671, 3336571891, 3584528711,
   113926993, 338241895, 666307205, 773529912, 1294757372, 1396182291,
   1695183700, 1986661051, 2177026350, 2456956037, 2730485921, 2820302411,
   3259730800, 3345764771, 3516065817, 3600352804, 4094571909, 275423344,
   430227734, 506948616, 659060556, 883997877, 958139571, 1322822218,
   1537002063, 1747873779, 1955562222, 2024104815, 2227730452, 2361852424,
   2428436474, 2756734187, 3204031479, 3329325298]

/-- The SHA-256 working state: eight 32-bit words. -/
structure Hash8 where
  w0 : Nat
  w1 : Nat
  w2 : Nat
  w3 : Nat
  w4 : Nat
  w5 : Nat
  w6 : Nat
  w7 : Nat
deriving Repr, DecidableEq

/-- The SHA-256 initial hash value. -/
def shaH0 : Hash8 :=
  ⟨1779033703, 3144134277, 1013904242, 2773480762,
   1359893119, 2600822924, 528734635, 1541459225⟩

/-- Message-schedule sigma-0. -/
def ssig0 (x : Nat) : Nat := rotr 7 x ^^^ rotr 18 x ^^^ (x >>> 3)

/-- Message-schedule sigma-1. -/
def ssig1 (x : Nat) : Nat := rotr 17 x ^^^ rotr 19 x ^^^ (x >>> 10)

/-- Compression Sigma-0. -/
def bsig0 (x : Nat) : Nat := rotr 2 x ^^^ rotr 13 x ^^^ rotr 22 x

/-- Compression Sigma-1. -/
def bsig1 (x : Nat) : Nat := rotr 6 x ^^^ rotr 11 x ^^^ rotr 25 x

/-- SHA-256 choose function. -/
def chFn (e f g : Nat) : Nat := (e &&& f) ^^^ (compl32 e &&& g)

/-- SHA-256 majority function. -/
def majFn (a b c : Nat) : Nat := (a &&& b) ^^^ (a &&& c) ^^^ (b &&& c)

/-- SHA-256 padding: append `0x80`, zeros to 56 mod 64, and the bit length
as 8 big-endian bytes. -/
def shaPad (msg : List Nat) : List Nat :=
  let l := msg.length
  msg ++ [128] ++ List.replicate ((119 - l % 64) % 64) 0 ++ natToBE8 (8 * l)

/-- Group bytes into big-endian 32-bit words. -/
def beWords : List Nat → List Nat
  | a :: b :: c :: d :: rest => (((a * 256 + b) * 256 + c) * 256 + d) :: beWords rest
  | _ => []

/-- Split a word list into blocks of 16 words (fuel-driven so that the kernel
can evaluate it). -/
def chunk16 : Nat → List Nat → List (List Nat)
  | 0, _ => []
  | _, [] => []
  | fuel + 1, ws => ws.take 16 :: chunk16 fuel (ws.drop 16)

/-- One step of message-schedule extension; `acc` holds the schedule so far,
newest word first. -/
def schedStep (acc : List Nat) : List Nat :=
  ((ssig1 (acc.getD 1 0) + acc.getD 6 0 + ssig0 (acc.getD 14 0) + acc.getD 15 0) % M32) :: acc

/-- Iterate the schedule extension. -/
def schedExtend : Nat → List Nat → List Nat
  | 0, acc => acc
  | n + 1, acc => schedExtend n (schedStep acc)

/-- The 64-word message schedule of one block. -/
def schedule (block : List Nat) : List Nat :=
  (schedExtend 48 block.reverse).reverse

/-- One SHA-256 round. -/
def shaRound (st : Hash8) (k w : Nat) : Hash8 :=
  let t1 := (st.w7 + bsig1 st.w4 + chFn st.w4 st.w5 st.w6 + k + w) % M32
  let t2 := (bsig0 st.w0 + majFn st.w0 st.w1 st.w2) % M32
  ⟨(t1 + t2) % M32, st.w0, st.w1, st.w2, (st.w3 + t1) % M32, st.w4, st.w5, st.w6⟩

/-- Run the 64 rounds over the paired constants and schedule. -/
def shaRounds : List Nat → List Nat → Hash8 → Hash8
  | k :: ks, w :: ws, st => shaRounds ks ws (shaRound st k w)
  | _, _, st => st

/-- Compress one 16-word block into the running hash. -/
def shaCompress (h : Hash8) (block : List Nat) : Hash8 :=
  let st := shaRounds shaK (schedule block) h
  ⟨(h.w0 + st.w0) % M32, (h.w1 + st.w1) % M32, (h.w2 + st.w2) % M32,
   (h.w3 + st.w3) % M32, (h.w4 + st.w4) % M32, (h.w5 + st.w5) % M32,
   (h.w6 + st.w6) % M32, (h.w7 + st.w7) % M32⟩

/-- Serialize the final state as the 32 digest bytes. -/
def hash8Bytes (h : Hash8) : List Nat :=
  wordBE4 h.w0 ++ wordBE4 h.w1 ++ wordBE4 h.w2 ++ wordBE4 h.w3 ++
  wordBE4 h.w4 ++ wordBE4 h.w5 ++ wordBE4 h.w6 ++ wordBE4 h.w7

/-- SHA-256 of a byte string, as its 32 digest bytes. -/
def sha256 (msg : List Nat) : List Nat :=
  let ws := beWords (shaPad msg)
  hash8Bytes ((chunk16 ws.length ws).foldl shaCompress shaH0)

/-- A SHA-256 digest is 32 bytes long, whatever the message. -/
theorem sha256_length (msg : List Nat) : (sha256 msg).length = 32 := by
  simp [sha256, hash8Bytes, wordBE4]

/-- A SHA-256 digest is never the empty byte string (Python truthiness of a
digest is always `True`). -/
theorem sha256_ne_nil (msg : List Nat) : sha256 msg ≠ [] := by
  intro hc
  have := sha256_length msg
  rw [hc] at this
  simp at this

end PulseChain

namespace PulseChain

/-! ### Python `json.dumps` on the payload shapes the source exercises

`PoHGenerator.next` serializes a `dict`/`list` payload with
`json.dumps(env_data, sort_keys=True).encode()`.  CPython's default
separators are `", "` and `": "` (a space follows each colon and comma).
The model covers flat string-keyed objects with integer values — the only
payload shape the claims exercise — restricted to keys without characters
that JSON escapes. -/

/-- Environmental data accepted by `next`: raw bytes, or a flat JSON object
(string keys, integer values). -/
inductive EnvData where
  | bytes (b : List Nat)
  | jsonObj (kvs : List (String × Int))
deriving Repr, DecidableEq

/-- Insert a key/value pair into a key-sorted list (CPython `sorted` order on
ASCII keys). -/
def insertSorted (p : String × Int) : List (String × Int) → List (String × Int)
  | [] => [p]
  | q :: rest => if p.1 ≤ q.1 then p :: q :: rest else q :: insertSorted p rest

/-- Sort the pairs by key, as `sort_keys=True` does. -/
def sortByKey (kvs : List (String × Int)) : List (String × Int) :=
  kvs.foldr insertSorted []

/-- `json.dumps(obj, sort_keys=True)` on a flat string→int object. -/
def jsonDumps (kvs : List (String × Int)) : String :=
  "\x7b" ++ String.intercalate ", "
    ((sortByKey kvs).map fun p => "\"" ++ p.1 ++ "\": " ++ toString p.2) ++ "\x7d"

/-- The bytes `next` actually hashes for a payload: raw bytes unchanged, a
dict serialized by `json.dumps(·, sort_keys=True).encode()`. -/
def envBytes : EnvData → List Nat
  | .bytes b => b
  | .jsonObj kvs => strBytes (jsonDumps kvs)

/-! ### Pulse generator (`pulsechain/core/poh_generator.py`) -/

/-- `PoHHash`: one link of the pulse timeline.  Byte fields are digest bytes;
the hex-string form used by `to_dict`/`from_dict` is modelled by the record
itself, since hex encoding is a bijection on byte strings and
`from_dict(to_dict(x)) == x`. -/
structure PoHHash where
  hash : List Nat
  counter : Int
  timestamp : ℚ
  envDataHash : Option (List Nat) := none
  prevHash : Option (List Nat) := none
deriving Repr, DecidableEq

/-- The mutable state of `PoHGenerator` (performance-tracking fields, which no
claim observes, are omitted from the projection). -/
structure GenState where
  lastHash : List Nat
  counter : Int
  envDataHash : List Nat
  hashChain : List PoHHash
deriving Repr, DecidableEq

/-- `PoHGenerator.__init__` with no `initial_hash` and `counter_start = 0`. -/
def genInit : GenState :=
  { lastHash := sha256 (strBytes "PulseChain PoH Genesis")
    counter := 0
    envDataHash := sha256 (strBytes "Initial Environment Data")
    hashChain := [] }

/-- The env hash a call to `next` binds: recomputed from the payload when one
is given, the sticky previous value otherwise. -/
def nextEnvHash (envData : Option EnvData) (st : GenState) : List Nat :=
  match envData with
  | some d => sha256 (envBytes d)
  | none => st.envDataHash

/-- The link a successful `next` emits:
`hash = SHA256(prev ‖ le64(counter) ‖ env_hash)` with the counter then
incremented. -/
def nextLink (now : ℚ) (envData : Option EnvData) (st : GenState) : PoHHash :=
  let env := nextEnvHash envData st
  { hash := sha256 (st.lastHash ++ natToLE8 st.counter.toNat ++ env)
    counter := st.counter + 1
    timestamp := now
    envDataHash := some env
    prevHash := some st.lastHash }

/-- The generator state after a successful `next`: last hash and counter
advanced, env hash stuck, link appended to the ring (bounded at 1000). -/
def nextState (now : ℚ) (envData : Option EnvData) (st : GenState) : GenState :=
  let chain := st.hashChain ++ [nextLink now envData st]
  { lastHash := (nextLink now envData st).hash
    counter := st.counter + 1
    envDataHash := nextEnvHash envData st
    hashChain := if chain.length > 1000 then chain.drop (chain.length - 1000) else chain }

/-- `PoHGenerator.next`.  `self.counter.to_bytes(8, 'little')` raises
`OverflowError` outside `[0, 2^64)` (the guard below is exactly that check,
cf. `intToLE8`); the wall clock is the explicit `now` argument. -/
def pohNext (now : ℚ) (envData : Option EnvData) (st : GenState) :
    Except String (PoHHash × GenState) :=
  match intToLE8 st.counter with
  | none => .error "OverflowError"
  | some _ => .ok (nextLink now envData st, nextState now envData st)

/-- `PoHGenerator.verify`, with the `OverflowError` that
`(counter - 1).to_bytes(8, 'little')` raises outside `[0, 2^64)` made
explicit.  An absent or empty `prev_hash` is falsy and yields `False`. -/
def pohVerify (link : PoHHash) : Except String Bool :=
  match link.prevHash with
  | none => .ok false
  | some prev =>
    if prev = [] then .ok false
    else
      match intToLE8 (link.counter - 1) with
      | none => .error "OverflowError"
      | some ctrBytes =>
        .ok (sha256 (prev ++ ctrBytes ++ link.envDataHash.getD []) = link.hash)

/-- `PoHGenerator.export_chain`: the slice `hash_chain[start:min(start+count, len)]`
(the `to_dict` serialization is the identity of this model). -/
def exportChain (st : GenState) (startIdx count : Nat) : List PoHHash :=
  let endIdx := min (startIdx + count) st.hashChain.length
  (st.hashChain.drop startIdx).take (endIdx - startIdx)

/-- The verification loop of `import_chain`: checks links at index 1 and
above (index 0 is never verified); an exception anywhere is caught by the
surrounding `try` and fails the import. -/
def importVerifyTail : List PoHHash → Bool
  | [] => true
  | l :: rest => (pohVerify l matches .ok true) && importVerifyTail rest

/-- `PoHGenerator.import_chain`.  Returns the Python return value paired with
the state after the call; on any failure the state is unchanged. -/
def importChain (chainData : List PoHHash) (st : GenState) : Bool × GenState :=
  match chainData with
  | [] => (false, st)
  | first :: rest =>
    if importVerifyTail rest then
      let last := (first :: rest).getLast (by simp)
      let env := match last.envDataHash with
        | some e => if e = [] then st.envDataHash else e
        | none => st.envDataHash
      let imported := first :: rest
      let newChain :=
        if imported.length > st.hashChain.length then
          imported.drop (imported.length - 1000)
        else
          match (st.hashChain.map PoHHash.counter).indexOf? first.counter with
          | some overlapIdx =>
            let merged := st.hashChain.take overlapIdx ++ imported
            merged.drop (merged.length - 1000)
          | none => st.hashChain
      (true,
        { lastHash := last.hash
          counter := last.counter
          envDataHash := env
          hashChain := newChain })
    else (false, st)

end PulseChain

namespace PulseChain

/-! ### Slot consensus (`pulsechain/consensus/poh.py`) -/

/-- `PoHLeader`. -/
structure PoHLeader where
  nodeId : String
  publicKey : List Nat
  region : String
  stake : ℚ
  performanceScore : ℚ := 1
  lastLeaderSlot : Nat := 0
  consecutiveSlots : Nat := 0
deriving Repr, DecidableEq

/-- `PoHSlot` (the `hashes` list, which no claim observes, is omitted). -/
structure PoHSlot where
  slotNumber : Nat
  startCounter : Int
  endCounter : Int
  leaderId : String
  startTime : ℚ
  endTime : Option ℚ := none
  confirmations : List String := []
  isFinalized : Bool := false
deriving Repr, DecidableEq

/-- Python `set.add` on a list kept duplicate-free by construction. -/
def addToSet (x : String) (s : List String) : List String :=
  if x ∈ s then s else s ++ [x]

/-- Update the value stored under a key of an association list, in place
(CPython dict update keeps the key's position). -/
def updateAssoc {κ α : Type} [DecidableEq κ] (k : κ) (f : α → α) :
    List (κ × α) → List (κ × α)
  | [] => []
  | (k', v) :: rest => if k' = k then (k', f v) :: rest else (k', v) :: updateAssoc k f rest

/-- Dict assignment `d[k] = v`: replace in place if the key exists, else
append. -/
def setAssoc {κ α : Type} [DecidableEq κ] (k : κ) (v : α) :
    List (κ × α) → List (κ × α)
  | [] => [(k, v)]
  | (k', v') :: rest => if k' = k then (k', v) :: rest else (k', v') :: setAssoc k v rest

/-- The deterministic PRNG draws `select_leader` consumes after
`random.seed(seed)`.  CPython's Mersenne Twister makes both draws pure
functions of the seed; the functions themselves are left as parameters:
`frac seed` is `random.random()` scaled into `[0, 1]` (so
`random.uniform(0, w) = frac seed * w`), and `choiceIdx seed n` is the index
`random.choice` picks from a list of length `n`. -/
structure Rng where
  frac : Nat → ℚ
  choiceIdx : Nat → Nat → Nat

/-- The state of `PoHConsensus`.  `latestPulseHash`/`latestPulseCounter`
project the collaborating `PoHGenerator`'s `get_latest_hash()` view (hash and
counter of the newest link), which the consensus code only reads. -/
structure ConsState where
  nodeId : String
  region : String
  slotDuration : ℚ := 2/5
  targetHashesPerSlot : Int := 10000
  currentSlotNumber : Nat := 0
  slots : List (Nat × PoHSlot) := []
  finalizedSlots : List Nat := []
  leaders : List (String × PoHLeader) := []
  currentLeaderId : Option String := none
  isLeader : Bool := false
  validators : List String := []
  latestPulseHash : List Nat
  latestPulseCounter : Int
deriving Repr, DecidableEq

/-- `PoHConsensus.__init__` (with the generator projection supplied). -/
def consInit (nodeId region : String) (latestHash : List Nat) (latestCounter : Int) : ConsState :=
  { nodeId := nodeId
    region := region
    latestPulseHash := latestHash
    latestPulseCounter := latestCounter }

/-- `PoHConsensus.register_leader`. -/
def registerLeader (nodeId : String) (publicKey : List Nat) (region : String)
    (stake : ℚ) (st : ConsState) : ConsState :=
  let leader : PoHLeader :=
    { nodeId := nodeId, publicKey := publicKey, region := region, stake := stake }
  { st with leaders := setAssoc nodeId leader st.leaders }

/-- `PoHConsensus.register_validator`. -/
def registerValidator (nodeId : String) (st : ConsState) : ConsState :=
  { st with validators := addToSet nodeId st.validators }

/-- The stat mutation `select_leader` applies to the chosen leader: record
the slot, extend or reset the consecutive-slot streak, and multiply the
performance score by 0.95 — with no lower clamp — once the streak exceeds 3. -/
def leaderStatUpdate (slotNumber : Nat) (isRepeat : Bool) (l : PoHLeader) : PoHLeader :=
  if isRepeat then
    let streak := l.consecutiveSlots + 1
    { l with lastLeaderSlot := slotNumber
             consecutiveSlots := streak
             performanceScore :=
               if streak > 3 then l.performanceScore * (19/20) else l.performanceScore }
  else
    { l with lastLeaderSlot := slotNumber, consecutiveSlots := 1 }

/-- The cumulative-weight walk of `select_leader`: return the first leader
whose cumulative weight reaches `selectionPoint`. -/
def cumulativeSelect (selectionPoint : ℚ) (cumulative : ℚ) :
    List (String × PoHLeader) → Option String
  | [] => none
  | (nodeId, l) :: rest =>
    let cum := cumulative + l.stake * l.performanceScore
    if cum ≥ selectionPoint then some nodeId
    else cumulativeSelect selectionPoint cum rest

/-- The PRNG seed `select_leader` derives: the first 8 bytes (little-endian)
of `SHA256(latest_hash ‖ le64(slot_number))`. -/
def selectionSeed (slotBytes : List Nat) (st : ConsState) : Nat :=
  natFromLE ((sha256 (st.latestPulseHash ++ slotBytes)).take 8)

/-- The total stake·performance weight of the registered leaders. -/
def leadersTotalWeight (l : List (String × PoHLeader)) : ℚ :=
  (l.map fun p => p.2.stake * p.2.performanceScore).sum

/-- The stat mutation applied to the chosen leader inside the selection
loop. -/
def applyLeaderStats (slotNumber : Nat) (chosen : String) (st : ConsState) : ConsState :=
  let isRepeat := st.currentLeaderId = some chosen
  { st with leaders := updateAssoc chosen (leaderStatUpdate slotNumber isRepeat) st.leaders }

/-- `PoHConsensus.select_leader`.  With no registered leader it returns
`self.node_id` untouched; otherwise it seeds the PRNG with the first 8 bytes
(little-endian) of `SHA256(latest_hash ‖ le64(slot_number))`, walks the
cumulative stake·score weights, and mutates the chosen leader's stats.
`slot_number.to_bytes(8, 'little')` raises outside `[0, 2^64)`. -/
def selectLeader (rng : Rng) (slotNumber : Nat) (st : ConsState) :
    Except String (String × ConsState) :=
  if st.leaders = [] then .ok (st.nodeId, st)
  else
    match intToLE8 (slotNumber : Int) with
    | none => .error "OverflowError"
    | some slotBytes =>
      if leadersTotalWeight st.leaders = 0 then
        .ok ((st.leaders.map Prod.fst).getD
          (rng.choiceIdx (selectionSeed slotBytes st) (st.leaders.map Prod.fst).length)
          st.nodeId, st)
      else
        match cumulativeSelect (rng.frac (selectionSeed slotBytes st) *
            leadersTotalWeight st.leaders) 0 st.leaders with
        | some chosen => .ok (chosen, applyLeaderStats slotNumber chosen st)
        | none => .ok ((st.leaders.map Prod.fst).getD 0 st.nodeId, st)

/-- The finalized copy of a slot: flag set, end time stamped, end counter
taken from the latest pulse. -/
def finalizedSlotRecord (now : ℚ) (st : ConsState) (slot : PoHSlot) : PoHSlot :=
  { slot with isFinalized := true, endTime := some now, endCounter := st.latestPulseCounter }

/-- The clamped performance update applied on finalization: a bump
`min(1.5, s·1.05)` when `bump` holds, a penalty `max(0.5, s·0.95)`
otherwise. -/
def finalizeScoreUpdate (bump : Prop) [Decidable bump] (l : PoHLeader) : PoHLeader :=
  { l with performanceScore :=
      if bump then min (3/2) (l.performanceScore * (21/20))
      else max (1/2) (l.performanceScore * (19/20)) }

/-- The hash-production ratio of the slot being finalized:
`(end_counter − start_counter) / target_hashes_per_slot` (the end counter
was just set to the latest pulse counter). -/
def hashQuot (st : ConsState) (slot : PoHSlot) : ℚ :=
  ((st.latestPulseCounter - slot.startCounter : Int) : ℚ) / (st.targetHashesPerSlot : ℚ)

/-- The leader table after finalization: if the slot's leader is registered,
bump its score when the slot produced within 20% of the target, penalize it
otherwise. -/
def finalizeLeaderTable (st : ConsState) (slot : PoHSlot) : List (String × PoHLeader) :=
  if (st.leaders.lookup slot.leaderId).isSome then
    updateAssoc slot.leaderId
      (finalizeScoreUpdate (4/5 ≤ hashQuot st slot ∧ hashQuot st slot ≤ 6/5)) st.leaders
  else st.leaders

/-- `PoHConsensus.finalize_slot` (wall clock passed explicitly).  The quorum
bound is `max(1, len(validators) * 2 // 3)` — Python floor division. -/
def finalizeSlot (now : ℚ) (slotNumber : Nat) (st : ConsState) : Bool × ConsState :=
  match st.slots.lookup slotNumber with
  | none => (false, st)
  | some slot =>
    if slot.isFinalized then (true, st)
    else if slot.confirmations.length < max 1 (st.validators.length * 2 / 3) then (false, st)
    else
      (true, { st with
        slots := setAssoc slotNumber (finalizedSlotRecord now st slot) st.slots
        finalizedSlots := st.finalizedSlots ++ [slotNumber]
        leaders := finalizeLeaderTable st slot })

/-- `PoHConsensus.confirm_slot`: add the validator id to the slot's
confirmation set — with no check that the id was ever registered — then try
to finalize. -/
def confirmSlot (now : ℚ) (slotNumber : Nat) (validatorId : String) (st : ConsState) :
    Bool × ConsState :=
  match st.slots.lookup slotNumber with
  | none => (false, st)
  | some slot =>
    if slot.isFinalized then (true, st)
    else
      let slot' := { slot with confirmations := addToSet validatorId slot.confirmations }
      finalizeSlot now slotNumber
        { st with slots := setAssoc slotNumber slot' st.slots }

/-- `PoHConsensus.create_new_slot` (wall clock passed explicitly; the
callback dispatch, which only notifies subscribers, is a no-op here). -/
def createNewSlot (rng : Rng) (now : ℚ) (st : ConsState) :
    Except String (PoHSlot × ConsState) :=
  match selectLeader rng (st.currentSlotNumber + 1)
      { st with currentSlotNumber := st.currentSlotNumber + 1 } with
  | .error s => .error s
  | .ok (leaderId, st1) =>
    let st2 := { st1 with currentLeaderId := some leaderId, isLeader := leaderId = st1.nodeId }
    let slot : PoHSlot :=
      { slotNumber := st.currentSlotNumber + 1
        startCounter := st2.latestPulseCounter
        endCounter := st2.latestPulseCounter
        leaderId := leaderId
        startTime := now }
    .ok (slot, { st2 with slots := setAssoc (st.currentSlotNumber + 1) slot st2.slots })

end PulseChain

namespace PulseChain

/-! ### Heartbeat protocol (`pulsechain/network/heartbeat.py`) -/

/-- `HeartbeatMessage` (the signature is carried opaquely; its verification
outcome is a parameter, see `processHeartbeat`). -/
structure HeartbeatMessage where
  nodeId : String
  pohSlot : Nat
  pohHash : List Nat
  sequence : Int
  timestamp : ℚ
  region : String
  signature : Option (List Nat) := none
deriving Repr, DecidableEq

/-- `NodeInfo`: per-peer heartbeat state. -/
structure NodeInfo where
  nodeId : String
  publicKey : List Nat
  region : String
  lastHeartbeat : Option HeartbeatMessage := none
  lastSeen : ℚ := 0
  sequenceSeen : List Int := []
  latencySamples : List ℚ := []
  avgLatency : ℚ := 0
  status : String := "unknown"
deriving Repr, DecidableEq

/-- Python `set.add` on the integer seen-set. -/
def addToIntSet (x : Int) (s : List Int) : List Int :=
  if x ∈ s then s else s ++ [x]

/-- The state of `HeartbeatProtocol` relevant to processing (send-side
sequence counter and keys omitted). -/
structure HeartbeatState where
  nodeId : String
  region : String
  nodes : List (String × NodeInfo) := []
  receivedHeartbeats : List HeartbeatMessage := []
deriving Repr, DecidableEq

/-- `HeartbeatProtocol.process_heartbeat`.  `sigVerify pk hb` is the outcome
of `hb.verify(node.public_key)` (Ed25519 or the simulated fallback — an
external library, passed as a parameter); `now` is `time.time()`.  Every
rejection path returns `False` before any state is mutated. -/
def processHeartbeat (sigVerify : List Nat → HeartbeatMessage → Bool) (now : ℚ)
    (hb : HeartbeatMessage) (st : HeartbeatState) : Bool × HeartbeatState :=
  match st.nodes.lookup hb.nodeId with
  | none => (false, st)
  | some node =>
    if ¬ sigVerify node.publicKey hb then (false, st)
    else if hb.sequence ∈ node.sequenceSeen then (false, st)
    else if hb.timestamp > now + 1 then (false, st)
    else
      let seen := addToIntSet hb.sequence node.sequenceSeen
      let seen := if seen.length > 1000 then
          (seen.mergeSort (fun a b => a ≤ b)).drop (seen.length - 1000)
        else seen
      let latency := now - hb.timestamp
      let samples := node.latencySamples ++ [latency]
      let samples := if samples.length > 100 then samples.drop (samples.length - 100) else samples
      let node' := { node with
        lastHeartbeat := some hb
        lastSeen := now
        sequenceSeen := seen
        latencySamples := samples
        avgLatency := samples.sum / (samples.length : ℚ)
        status := "active" }
      let received := st.receivedHeartbeats ++ [hb]
      let received := if received.length > 1000 then received.drop (received.length - 1000) else received
      (true, { st with
        nodes := setAssoc hb.nodeId node' st.nodes
        receivedHeartbeats := received })

/-! ### Region manager projection and region sync
(`pulsechain/core/region_manager.py`, `pulsechain/network/region_sync.py`)

The sync-plane state tracked here is the projection the claims observe: the
processed-id dedup set, the region graph (region ids and their symmetric
connection sets), the slot-consensus state, the pulse-generator state and
the outgoing queue.  Node membership (`active_nodes`, coordinators, the node
registry) lies outside the projection. -/

/-- The region graph: each region id maps to its `connected_regions` set. -/
structure RegionGraph where
  primaryRegion : String
  regions : List (String × List String) := []
deriving Repr, DecidableEq

/-- `RegionManager.get_connected_regions`: the empty list for an unknown
region. -/
def getConnectedRegions (rm : RegionGraph) (regionId : String) : List String :=
  (rm.regions.lookup regionId).getD []

/-- `RegionManager.create_region` restricted to the graph projection (the
human-readable name is not tracked): no-op on an existing id. -/
def createRegion (regionId : String) (rm : RegionGraph) : RegionGraph :=
  if (rm.regions.lookup regionId).isSome then rm
  else { rm with regions := rm.regions ++ [(regionId, [])] }

/-- `RegionManager.connect_regions`: both regions must exist and differ;
the connection is recorded symmetrically. -/
def connectRegions (regionId1 regionId2 : String) (rm : RegionGraph) : RegionGraph :=
  if (rm.regions.lookup regionId1).isNone then rm
  else if (rm.regions.lookup regionId2).isNone then rm
  else if regionId1 = regionId2 then rm
  else
    let regions' := updateAssoc regionId2 (addToSet regionId1) rm.regions
    { rm with regions := updateAssoc regionId1 (addToSet regionId2) regions' }

/-- A received `poh_slot` summary (`message.data["slot"]`). -/
structure SlotSummary where
  slotNumber : Option Nat
deriving Repr, DecidableEq

/-- Region-info payload (`message.data["region_info"]`). -/
structure RegionInfoData where
  regionId : String
  name : String
deriving Repr, DecidableEq

/-- The `data` dictionary of a `SyncMessage`, modelled by its relevant keys
(`.get` of an absent key is `None`). -/
structure SyncPayload where
  slot : Option SlotSummary := none
  chain : Option (List PoHHash) := none
  regionInfo : Option RegionInfoData := none
  nodeInfoPrimaryRegions : List String := []
  startSlot : Option Nat := none
  endSlot : Option Nat := none
deriving Repr, DecidableEq

/-- `SyncMessage`. -/
structure SyncMessage where
  sourceRegion : String
  targetRegion : String
  messageType : String
  data : SyncPayload
  timestamp : ℚ
  messageId : String
deriving Repr, DecidableEq

/-- The state of `RegionSync` (tracked projection). -/
structure SyncState where
  rm : RegionGraph
  cons : ConsState
  gen : GenState
  outgoing : List SyncMessage := []
  processedMessageIds : List String := []
deriving Repr, DecidableEq

/-- `RegionSync.send_message`: the target region must exist and be directly
connected to the source region. -/
def sendMessage (msg : SyncMessage) (st : SyncState) : Bool × SyncState :=
  if (st.rm.regions.lookup msg.targetRegion).isNone then (false, st)
  else if msg.targetRegion ∉ getConnectedRegions st.rm msg.sourceRegion then (false, st)
  else (true, { st with outgoing := st.outgoing ++ [msg] })

/-- `RegionSync._handle_poh_slot`: on a slot summary that is not locally
finalized, queue a `poh_chain_request` back to the source (`newMsgId` models
the random default `message_id`, `now` the wall clock). -/
def handlePohSlot (now : ℚ) (newMsgId : String) (msg : SyncMessage) (st : SyncState) : SyncState :=
  match msg.data.slot with
  | none => st
  | some summary =>
    match summary.slotNumber with
    | none => st
    | some slotNumber =>
      match st.cons.slots.lookup slotNumber with
      | some slot =>
        if slot.isFinalized then st
        else
          (sendMessage
            { sourceRegion := st.rm.primaryRegion
              targetRegion := msg.sourceRegion
              messageType := "poh_chain_request"
              data := { startSlot := some (slotNumber - 10), endSlot := some slotNumber }
              timestamp := now
              messageId := newMsgId } st).2
      | none =>
        (sendMessage
          { sourceRegion := st.rm.primaryRegion
            targetRegion := msg.sourceRegion
            messageType := "poh_chain_request"
            data := { startSlot := some (slotNumber - 10), endSlot := some slotNumber }
            timestamp := now
            messageId := newMsgId } st).2

/-- `RegionSync._handle_poh_chain`: the handler only logs the received
slots — it neither validates the chain (the generator's `import_chain` is
never called) nor merges anything; the whole tracked state is returned
unchanged. -/
def handlePohChain (_msg : SyncMessage) (st : SyncState) : SyncState :=
  st

/-- `RegionSync._handle_region_info`: auto-create the described region and
connect it to the primary region when not already connected. -/
def handleRegionInfo (msg : SyncMessage) (st : SyncState) : SyncState :=
  match msg.data.regionInfo with
  | none => st
  | some info =>
    if info.regionId = "" then st
    else
      let rm := if (st.rm.regions.lookup info.regionId).isNone
        then createRegion info.regionId st.rm else st.rm
      let rm := if info.regionId ∉ getConnectedRegions rm rm.primaryRegion
        then connectRegions rm.primaryRegion info.regionId rm else rm
      { st with rm := rm }

/-- `RegionSync._handle_node_info`, restricted to the tracked projection:
`register_node` creates each listed primary region when absent (its other
effects — node registry, `active_nodes`, coordinators — lie outside the
projection; `add_secondary_region` never touches the graph). -/
def handleNodeInfo (msg : SyncMessage) (st : SyncState) : SyncState :=
  { st with rm := msg.data.nodeInfoPrimaryRegions.foldl (fun rm r => createRegion r rm) st.rm }

/-- Recording a processed id: append, then the ≤ 10000 dedup-set compaction
step (with ids tracked in insertion order the bound keeps the last 5000). -/
def dedupAppend (ids : List String) (newId : String) : List String :=
  let processed := ids ++ [newId]
  if processed.length > 10000 then processed.drop (processed.length - 5000)
  else processed

/-- `RegionSync.process_message`: dedup by `message_id`, require the target
to be the primary region, the source to be connected to it, and the message
to be at most 60 s old; then dispatch on the registered handler table and
record the id as processed. -/
def processMessage (now : ℚ) (newMsgId : String) (msg : SyncMessage) (st : SyncState) :
    Bool × SyncState :=
  if msg.messageId ∈ st.processedMessageIds then (false, st)
  else if msg.targetRegion ≠ st.rm.primaryRegion then (false, st)
  else if msg.sourceRegion ∉ getConnectedRegions st.rm msg.targetRegion then (false, st)
  else if now - msg.timestamp > 60 then (false, st)
  else if msg.messageType = "poh_slot" ∨ msg.messageType = "poh_chain" ∨
          msg.messageType = "region_info" ∨ msg.messageType = "node_info" then
    let st :=
      if msg.messageType = "poh_slot" then handlePohSlot now newMsgId msg st
      else if msg.messageType = "poh_chain" then handlePohChain msg st
      else if msg.messageType = "region_info" then handleRegionInfo msg st
      else handleNodeInfo msg st
    (true, { st with processedMessageIds := dedupAppend st.processedMessageIds msg.messageId })
  else (false, st)

end PulseChain

namespace PulseChain

/-! ### Claims about the pulse generator -/

/-- Iterate `next` over a list of env payloads, collecting the emitted
links. -/
def pohNextN (now : ℚ) : List (Option EnvData) → GenState → Except String (List PoHHash × GenState)
  | [], st => .ok ([], st)
  | e :: rest, st =>
    match pohNext now e st with
    | .error s => .error s
    | .ok (l, st') =>
      match pohNextN now rest st' with
      | .error s => .error s
      | .ok (ls, st'') => .ok (l :: ls, st'')

/-- A successful call to `next` returns the emitted link and stepped state. -/
theorem pohNext_ok (now : ℚ) (e : Option EnvData) (st : GenState)
    (h0 : 0 ≤ st.counter) (hc : st.counter < 18446744073709551616) :
    pohNext now e st = .ok (nextLink now e st, nextState now e st) := by
  simp [pohNext, intToLE8, h0, hc]

/-- `verify` accepts every link `next` emits from a state with a counter in
`[0, 2^64)` and a non-empty last hash. -/
theorem pohVerify_nextLink (now : ℚ) (e : Option EnvData) (st : GenState)
    (h0 : 0 ≤ st.counter) (hc : st.counter < 18446744073709551616)
    (hnil : st.lastHash ≠ []) :
    pohVerify (nextLink now e st) = .ok true := by
  have hctr : intToLE8 st.counter = some (natToLE8 st.counter.toNat) := by
    simp [intToLE8, h0, hc]
  simp [pohVerify, nextLink, hnil, hctr]

/-- Running invariant of `pohNextN`: from any state with a non-negative
counter, a non-empty last hash, and room below 2^64, every call succeeds,
counters advance by one per link, every link's hash is the digest of
`prev ‖ le64(counter−1) ‖ env`, and `verify` accepts every link. -/
theorem pohNextN_spec (now : ℚ) (envs : List (Option EnvData)) (st : GenState)
    (h0 : 0 ≤ st.counter) (hbound : st.counter + envs.length ≤ 18446744073709551616)
    (hnil : st.lastHash ≠ []) :
    ∃ links st', pohNextN now envs st = .ok (links, st') ∧
      st'.counter = st.counter + envs.length ∧
      st'.lastHash ≠ [] ∧
      links.length = envs.length ∧
      (∀ i (hi : i < links.length), (links.get ⟨i, hi⟩).counter = st.counter + i + 1) ∧
      ∀ l ∈ links,
        l.prevHash.isSome ∧
        l.hash = sha256 (l.prevHash.getD [] ++ natToLE8 (l.counter - 1).toNat ++
          l.envDataHash.getD []) ∧
        pohVerify l = .ok true := by
  induction envs generalizing st with
  | nil =>
    refine ⟨[], st, rfl, by simp, hnil, by simp, by simp, by simp⟩
  | cons e rest ih =>
    have hc : st.counter < 18446744073709551616 := by
      simp only [List.length_cons] at hbound
      omega
    obtain ⟨links, st', hrun, hcount, hlast, hlen, hidx, hall⟩ := ih (nextState now e st)
      (by simp [nextState]; omega)
      (by simp only [List.length_cons] at hbound; simp [nextState]; omega)
      (sha256_ne_nil _)
    refine ⟨nextLink now e st :: links, st', ?_, ?_, hlast, ?_, ?_, ?_⟩
    · simp only [pohNextN, pohNext_ok now e st h0 hc, hrun]
    · simp only [nextState] at hcount
      simp only [List.length_cons, hcount]
      push_cast
      ring
    · simp [hlen]
    · intro i hi
      match i with
      | 0 => simp [nextLink]
      | j + 1 =>
        have hj : j < links.length := by
          simp only [List.length_cons] at hi
          omega
        have := hidx j hj
        simp only [nextState] at this
        simp only [List.get_cons_succ, this]
        push_cast
        ring
    · intro l hl
      rcases List.mem_cons.mp hl with hhead | htail
      · subst hhead
        refine ⟨rfl, by simp [nextLink], pohVerify_nextLink now e st h0 hc hnil⟩
      · exact hall l htail

/-- **C8** (confirmed).  Pulse monotonicity and self-verification: from a
freshly initialized generator (counter 0), any sequence of `N ≤ 2^64` calls
to `next` (the spec's counter is a 64-bit unsigned value; beyond 2^64 the
counter no longer encodes and `next` raises) succeeds and emits links whose
counters are exactly 1, 2, …, N, each with
`hash = SHA256(prev_hash ‖ le64(counter−1) ‖ env_hash)`, and `verify`
accepts every emitted link. -/
theorem pulse_monotonicity_self_verification (N : Nat) (envs : List (Option EnvData)) (now : ℚ)
    (hlen : envs.length = N) (hN : N ≤ 18446744073709551616) :
    ∃ links st', pohNextN now envs genInit = .ok (links, st') ∧
      links.length = N ∧
      (∀ i (hi : i < links.length), (links.get ⟨i, hi⟩).counter = i + 1) ∧
      ∀ l ∈ links,
        l.hash = sha256 (l.prevHash.getD [] ++ natToLE8 (l.counter - 1).toNat ++
          l.envDataHash.getD []) ∧
        pohVerify l = .ok true := by
  obtain ⟨links, st', hrun, _, _, hlenl, hidx, hall⟩ :=
    pohNextN_spec now envs genInit (by simp [genInit]) (by simp [genInit]; omega)
      (sha256_ne_nil _)
  refine ⟨links, st', hrun, hlenl.trans hlen,
    ?_, fun l hl => ⟨(hall l hl).2.1, (hall l hl).2.2⟩⟩
  intro i hi
  have := hidx i hi
  simp only [genInit] at this
  rw [this]
  ring

/-- Witness for C8 at `N = 3` with three empty env payloads. -/
theorem pulse_monotonicity_self_verification_witness :
    ([none, none, none] : List (Option EnvData)).length = 3 ∧ 3 ≤ 18446744073709551616 ∧
    ∃ links st', pohNextN 0 [none, none, none] genInit = .ok (links, st') ∧
      links.length = 3 ∧
      (∀ i (hi : i < links.length), (links.get ⟨i, hi⟩).counter = i + 1) ∧
      ∀ l ∈ links,
        l.hash = sha256 (l.prevHash.getD [] ++ natToLE8 (l.counter - 1).toNat ++
          l.envDataHash.getD []) ∧
        pohVerify l = .ok true :=
  ⟨rfl, by norm_num,
    pulse_monotonicity_self_verification 3 [none, none, none] 0 rfl (by norm_num)⟩

/-- **C4** (code_bug).  `verify` promises a boolean and "never raises", but a
`PoHHash` with `counter = 0` and a present `prev_hash` makes
`(counter - 1).to_bytes(8, 'little')` a negative conversion, which raises
`OverflowError` instead of returning `False`. -/
theorem verify_raises_on_counter_zero :
    pohVerify { hash := [0], counter := 0, timestamp := 0,
                envDataHash := none, prevHash := some [1] } = .error "OverflowError" := by
  rfl

end PulseChain

namespace PulseChain

/-! ### Claim C5: canonical env-hash binding -/

/-- The `\x7b"k": 1\x7d` payload of scenario S2. -/
def envK1 : Option EnvData := some (.jsonObj [("k", 1)])

/-- The `\x7b"k": 2\x7d` payload of scenario S2. -/
def envK2 : Option EnvData := some (.jsonObj [("k", 2)])

/-- Link A: an empty `next()` from the fresh generator. -/
def c5A : PoHHash := nextLink 0 none genInit

/-- State after link A. -/
def c5st1 : GenState := nextState 0 none genInit

/-- Link B: `next(\x7b"k": 1\x7d)`. -/
def c5B : PoHHash := nextLink 0 envK1 c5st1

/-- State after link B. -/
def c5st2 : GenState := nextState 0 envK1 c5st1

/-- Link C: `next(\x7b"k": 2\x7d)`. -/
def c5C : PoHHash := nextLink 0 envK2 c5st2

set_option maxRecDepth 10000 in
/-- **C5** (counterexample).  The claim says link B's `env_data_hash` is the
SHA-256 of the colon-tight string `\x7b"k":1\x7d`; it is not —
`json.dumps(·, sort_keys=True)` writes a space after the colon, so the
digested text is the 8-character `\x7b"k": 1\x7d` and the two digests
differ. -/
theorem env_hash_canonical_counterexample :
    c5B.envDataHash ≠ some (sha256 (strBytes "\x7b\"k\":1\x7d")) ∧
    ¬ (jsonDumps [("k", 1)]).length = 7 := by
  decide

set_option maxRecDepth 10000 in
/-- **C5** (amended).  Canonical env-hash binding as the code implements it:
`next(\x7b"k": 1\x7d)` binds `env_data_hash = SHA256` of the 8-character
canonical serialization `\x7b"k": 1\x7d` (a space after the colon); the prior
empty link A keeps the genesis env hash; `next(\x7b"k": 2\x7d)` yields a
different env hash and all three link hashes are distinct. -/
theorem env_hash_canonical_binding :
    (pohNext 0 none genInit).toOption = some (c5A, c5st1) ∧
    (pohNext 0 envK1 c5st1).toOption = some (c5B, c5st2) ∧
    (pohNext 0 envK2 c5st2).toOption = some (c5C, nextState 0 envK2 c5st2) ∧
    c5A.envDataHash = some genInit.envDataHash ∧
    jsonDumps [("k", 1)] = "\x7b\"k\": 1\x7d" ∧
    (jsonDumps [("k", 1)]).length = 8 ∧
    c5B.envDataHash = some (sha256 (strBytes "\x7b\"k\": 1\x7d")) ∧
    c5C.envDataHash ≠ c5B.envDataHash ∧
    c5A.hash ≠ c5B.hash ∧ c5B.hash ≠ c5C.hash ∧ c5A.hash ≠ c5C.hash := by
  decide

end PulseChain

namespace PulseChain

/-! ### Claim C3: import validation -/

/-- If every element of the tail list verifies, the import verification loop
passes. -/
theorem importVerifyTail_of_all (rest : List PoHHash)
    (h : ∀ l ∈ rest, pohVerify l = .ok true) : importVerifyTail rest = true := by
  induction rest with
  | nil => rfl
  | cons x xs ih =>
    have hx := h x (List.mem_cons_self x xs)
    simp [importVerifyTail, hx, ih fun l hl => h l (List.mem_cons_of_mem x hl)]

/-- If some element of the tail list fails verification, the import
verification loop fails. -/
theorem importVerifyTail_false_of_mem (rest : List PoHHash) (l : PoHHash)
    (hmem : l ∈ rest) (hfail : pohVerify l = .ok false) :
    importVerifyTail rest = false := by
  induction rest with
  | nil => cases hmem
  | cons x xs ih =>
    rcases List.mem_cons.mp hmem with hx | hxs
    · subst hx
      simp [importVerifyTail, hfail]
    · simp [importVerifyTail, ih hxs]

/-- Replacing a verifying link's stored hash with a different value makes
`verify` return `False` (the recomputed digest is unchanged, the stored hash
is not). -/
theorem pohVerify_hash_corrupt (l : PoHHash) (h' : List Nat)
    (hv : pohVerify l = .ok true) (hne : h' ≠ l.hash) :
    pohVerify { l with hash := h' } = .ok false := by
  cases hprev : l.prevHash with
  | none => simp [pohVerify, hprev] at hv
  | some prev =>
    simp only [pohVerify, hprev] at hv ⊢
    by_cases hpe : prev = []
    · simp [hpe] at hv
    · simp only [if_neg hpe] at hv ⊢
      cases hctr : intToLE8 (l.counter - 1) with
      | none => simp [hctr] at hv
      | some ctrBytes =>
        simp only [hctr] at hv ⊢
        simp only [Except.ok.injEq, decide_eq_true_eq] at hv
        rw [List.append_assoc] at hv
        simp [hv, hne.symm]

/-- **C3** (amended).  What `import_chain` actually guarantees: (a) importing
the full export of a well-formed ring of at most 1000 verifying links
returns `True` and leaves an identical ring; (b) replacing the stored hash
of any link at index ≥ 1 with a different value makes `import_chain` return
`False` with no state adopted.  (Index 0 is exempt — the verification loop
starts at index 1 — and a partial export truncates the ring; see the
counterexample.) -/
theorem import_roundtrip_and_tail_rejection :
    (∀ (st : GenState) (k : Nat),
      st.hashChain ≠ [] → st.hashChain.length ≤ 1000 → st.hashChain.length ≤ k →
      (∀ l ∈ st.hashChain, pohVerify l = .ok true) →
      (importChain (exportChain st 0 k) st).1 = true ∧
      (importChain (exportChain st 0 k) st).2.hashChain = st.hashChain) ∧
    (∀ (first l : PoHHash) (pre post : List PoHHash) (h' : List Nat) (st : GenState),
      pohVerify l = .ok true → h' ≠ l.hash →
      importChain (first :: pre ++ { l with hash := h' } :: post) st = (false, st)) := by
  constructor
  · intro st k hnil hlen hk hver
    have hexp : exportChain st 0 k = st.hashChain := by
      simp [exportChain, min_eq_right hk]
    cases hchain : st.hashChain with
    | nil => exact absurd hchain hnil
    | cons first rest =>
      have hverTail : importVerifyTail rest = true :=
        importVerifyTail_of_all rest fun l hl =>
          hver l (hchain ▸ List.mem_cons_of_mem first hl)
      rw [hexp, hchain]
      simp only [importChain, hverTail, if_pos rfl]
      constructor
      · rfl
      · simp only [hchain]
        have hlt : ¬ (first :: rest).length > (first :: rest).length := by omega
        have hidx : (((first :: rest).map PoHHash.counter).indexOf? first.counter) = some 0 := by
          simp [List.indexOf?, List.findIdx?_cons]
        simp only [if_neg hlt, hidx]
        have hl1000 : (first :: rest).length ≤ 1000 := hchain ▸ hlen
        have hz : rest.length - 999 = 0 := by
          simp only [List.length_cons] at hl1000
          omega
        simp [hz]
  · intro first l pre post h' st hv hne
    have hfail := pohVerify_hash_corrupt l h' hv hne
    have : importVerifyTail (pre ++ { l with hash := h' } :: post) = false :=
      importVerifyTail_false_of_mem _ _ (by simp) hfail
    simp [importChain, this]

end PulseChain

namespace PulseChain

/-- Decidable equality for `Except`, so that raise-or-return results can be
checked by `decide`. -/
instance {e a : Type} [DecidableEq e] [DecidableEq a] : DecidableEq (Except e a) := fun x y =>
  match x, y with
  | .error e1, .error e2 =>
    if h : e1 = e2 then .isTrue (by rw [h]) else .isFalse (fun hc => h (by injection hc))
  | .error _, .ok _ => .isFalse (fun hc => Except.noConfusion hc)
  | .ok _, .error _ => .isFalse (fun hc => Except.noConfusion hc)
  | .ok v1, .ok v2 =>
    if h : v1 = v2 then .isTrue (by rw [h]) else .isFalse (fun hc => h (by injection hc))

/-- A two-link generator run (two empty `next()` calls from a fresh
generator). -/
def c3st : GenState := nextState 0 none (nextState 0 none genInit)

/-- The first emitted link of the run. -/
def c3link1 : PoHHash := nextLink 0 none genInit

/-- The second emitted link of the run. -/
def c3link2 : PoHHash := nextLink 0 none (nextState 0 none genInit)

/-- Replace the first link's stored hash with 32 zero bytes (a corruption of
every byte of that field). -/
def corruptHead : List PoHHash → List PoHHash
  | [] => []
  | l :: rest => { l with hash := List.replicate 32 0 } :: rest

set_option maxRecDepth 10000 in
/-- **C3** (counterexample).  Two failures of the claim on a concrete
two-link export: (i) corrupting the first link's stored hash is *accepted* —
`import_chain` returns `True`, because its verification loop starts at index
1; (ii) importing the unmodified partial export `export(0, 1)` returns
`True` but truncates the two-link ring to one link, so the ring is not
identical. -/
theorem import_chain_counterexample :
    corruptHead (exportChain c3st 0 100) ≠ exportChain c3st 0 100 ∧
    (importChain (corruptHead (exportChain c3st 0 100)) c3st).1 = true ∧
    (importChain (exportChain c3st 0 1) c3st).1 = true ∧
    (importChain (exportChain c3st 0 1) c3st).2.hashChain ≠ c3st.hashChain := by
  decide

set_option maxRecDepth 10000 in
/-- Witness for the amended C3 theorem: the full two-link export round-trips
with an identical ring, and corrupting the second link's stored hash is
rejected with no state adopted. -/
theorem import_roundtrip_and_tail_rejection_witness :
    ((importChain (exportChain c3st 0 100) c3st).1 = true ∧
     (importChain (exportChain c3st 0 100) c3st).2.hashChain = c3st.hashChain) ∧
    importChain (c3link1 :: [] ++ { c3link2 with hash := List.replicate 32 0 } :: []) c3st =
      (false, c3st) :=
  ⟨import_roundtrip_and_tail_rejection.1 c3st 100 (by decide) (by decide) (by decide) (by decide),
   import_roundtrip_and_tail_rejection.2 c3link1 c3link2 [] [] (List.replicate 32 0) c3st
     (by decide) (by decide)⟩

end PulseChain

namespace PulseChain

/-! ### Claim C1: finalization quorum -/

/-- An `Rng` whose draws are never consumed in the scenarios below (no
leader is registered, so `select_leader` returns before seeding the PRNG). -/
def rngUnused : Rng := ⟨fun _ => 0, fun _ _ => 0⟩

/-- Fresh consensus for node `test_node` (generator projection: a zero
pulse hash at counter 0). -/
def c1state0 : ConsState := consInit "test_node" "r" (List.replicate 32 0) 0

/-- After registering validators v1–v4. -/
def c1state1 : ConsState :=
  registerValidator "v4" (registerValidator "v3"
    (registerValidator "v2" (registerValidator "v1" c1state0)))

/-- After `create_new_slot` (slot 1, leader defaults to self). -/
def c1state2 : ConsState :=
  ((createNewSlot rngUnused 0 c1state1).toOption.map Prod.snd).getD c1state1

/-- After `confirm_slot(1, "v1")`. -/
def c1state3 : ConsState := (confirmSlot 0 1 "v1" c1state2).2

/-- After `confirm_slot(1, "v2")`. -/
def c1state4 : ConsState := (confirmSlot 0 1 "v2" c1state3).2

/-- **C1** (counterexample).  With V = 4 registered validators the code's
threshold is `max(1, 4*2 // 3) = 2`, not `⌈8/3⌉ = 3`: confirming slot 1 with
v1 and then v2 already finalizes it, with `|confirmations| = 2` — the
claim's "not finalized" after v1, v2 (and finalization only at 3) is false. -/
theorem quorum_floor_counterexample :
    c1state1.validators.length = 4 ∧
    (createNewSlot rngUnused 0 c1state1).toOption.isSome = true ∧
    (confirmSlot 0 1 "v1" c1state2).1 = false ∧
    (confirmSlot 0 1 "v2" c1state3).1 = true ∧
    ((c1state4.slots.lookup 1).map PoHSlot.isFinalized) = some true ∧
    ((c1state4.slots.lookup 1).map fun s => s.confirmations.length) = some 2 := by
  decide

/-- **C1** (amended).  For every state with an existing, not-yet-finalized
slot, `finalize_slot` succeeds iff the slot's confirmation set has size at
least `max(1, ⌊2·V/3⌋)` (Python floor division `len(validators) * 2 // 3`),
where V is the registered-validator count; in particular with V = 4 the
threshold is 2, so v1 and v2 suffice. -/
theorem finalize_slot_quorum_floor (now : ℚ) (n : Nat) (st : ConsState) (slot : PoHSlot)
    (hlookup : st.slots.lookup n = some slot) (hfin : slot.isFinalized = false) :
    (finalizeSlot now n st).1 = true ↔
      max 1 (st.validators.length * 2 / 3) ≤ slot.confirmations.length := by
  simp only [finalizeSlot, hlookup, hfin, Bool.false_eq_true, if_false]
  rcases Nat.lt_or_ge slot.confirmations.length (max 1 (st.validators.length * 2 / 3)) with h | h
  · rw [if_pos h]
    constructor
    · intro hc
      cases hc
    · intro hc
      exact absurd hc (by omega)
  · rw [if_neg (Nat.not_lt.mpr h)]
    constructor
    · intro _
      exact h
    · intro _
      rfl

/-- The slot record `create_new_slot` put at key 1 in `c1state2`. -/
def c1slotRec : PoHSlot :=
  { slotNumber := 1, startCounter := 0, endCounter := 0,
    leaderId := "test_node", startTime := 0 }

/-- Witness for the amended C1 theorem at the concrete S4 state. -/
theorem finalize_slot_quorum_floor_witness :
    c1state2.slots.lookup 1 = some c1slotRec ∧ c1slotRec.isFinalized = false ∧
    ((finalizeSlot 0 1 c1state2).1 = true ↔
      max 1 (c1state2.validators.length * 2 / 3) ≤ c1slotRec.confirmations.length) :=
  ⟨by decide, by decide,
    finalize_slot_quorum_floor 0 1 c1state2 c1slotRec (by decide) (by decide)⟩

end PulseChain

namespace PulseChain

/-! ### Claim C10: unregistered validator ids are accepted and counted -/

/-- Dict assignment then lookup of the same key returns the assigned value. -/
theorem lookup_setAssoc_self {α : Type} (k : Nat) (v : α) (l : List (Nat × α)) :
    (setAssoc k v l).lookup k = some v := by
  induction l with
  | nil => simp [setAssoc]
  | cons p rest ih =>
    obtain ⟨k', v'⟩ := p
    by_cases h : k' = k
    · subst h
      simp [setAssoc]
    · have hne : (k == k') = false := beq_eq_false_iff_ne.mpr fun hc => h hc.symm
      simp [setAssoc, h, List.lookup, hne, ih]

/-- Consensus with validators a, b, c registered and slot 1 created. -/
def c10state0 : ConsState :=
  ((createNewSlot rngUnused 0
    (registerValidator "c" (registerValidator "b" (registerValidator "a"
      (consInit "test_node" "r" (List.replicate 32 0) 0))))).toOption.map Prod.snd).getD
    (consInit "test_node" "r" (List.replicate 32 0) 0)

/-- After confirmations from the unregistered ids x then y. -/
def c10final : ConsState := (confirmSlot 0 1 "y" (confirmSlot 0 1 "x" c10state0).2).2

/-- **C10** (confirmed).  `confirm_slot` records a confirmation from any id —
registration via `register_validator` is never consulted — and such ids count
toward the quorum: concretely, with registered validators exactly
`\x7ba, b, c\x7d`, the slot finalizes on confirmations from the unregistered
ids x and y alone. -/
theorem confirm_slot_unregistered_counts :
    (∀ (now : ℚ) (n : Nat) (vid : String) (st : ConsState) (slot : PoHSlot),
      st.slots.lookup n = some slot → slot.isFinalized = false →
      ∃ slot', (confirmSlot now n vid st).2.slots.lookup n = some slot' ∧
        slot'.confirmations = addToSet vid slot.confirmations) ∧
    (c10final.validators = ["a", "b", "c"] ∧
     ("x" ∈ c10final.validators) = False ∧ ("y" ∈ c10final.validators) = False ∧
     ((c10final.slots.lookup 1).map PoHSlot.isFinalized) = some true ∧
     ((c10final.slots.lookup 1).map PoHSlot.confirmations) = some ["x", "y"]) := by
  constructor
  · intro now n vid st slot hlookup hfin
    simp only [confirmSlot, hlookup, hfin, Bool.false_eq_true, if_false]
    have hl2 := lookup_setAssoc_self n
      ({ slot with confirmations := addToSet vid slot.confirmations, isFinalized := false })
      st.slots
    simp only [finalizeSlot, hl2, Bool.false_eq_true, if_false]
    rcases Nat.lt_or_ge (addToSet vid slot.confirmations).length
        (max 1 (st.validators.length * 2 / 3)) with h | h
    · rw [if_pos h]
      exact ⟨_, hl2, rfl⟩
    · rw [if_neg (Nat.not_lt.mpr h)]
      exact ⟨_, lookup_setAssoc_self n _ _, rfl⟩
  · refine ⟨by decide, by decide, by decide, by decide, by decide⟩

end PulseChain

namespace PulseChain

/-- Witness for C10 at a concrete state: the unregistered id `zzz` is added
to slot 1's confirmation set. -/
theorem confirm_slot_unregistered_counts_witness :
    ∃ slot', (confirmSlot 0 1 "zzz" c1state2).2.slots.lookup 1 = some slot' ∧
      slot'.confirmations = addToSet "zzz" c1slotRec.confirmations :=
  confirm_slot_unregistered_counts.1 0 1 "zzz" c1state2 c1slotRec (by decide) (by decide)

end PulseChain

namespace PulseChain

/-! ### Claim C9: heartbeat replay and skew rejection -/

/-- **C9** (confirmed).  For a registered sender, `process_heartbeat` returns
`False` and leaves the whole protocol state (hence the sender's `NodeInfo`:
last-seen, seen-set, latency samples, status) unchanged both when the
heartbeat's sequence is already in that sender's seen-set and when its
timestamp exceeds the current time by more than 1 second — every rejection
path returns before any mutation. -/
theorem heartbeat_replay_and_skew_rejection :
    (∀ (sigVerify : List Nat → HeartbeatMessage → Bool) (now : ℚ) (hb : HeartbeatMessage)
       (st : HeartbeatState) (node : NodeInfo),
      st.nodes.lookup hb.nodeId = some node →
      hb.sequence ∈ node.sequenceSeen →
      processHeartbeat sigVerify now hb st = (false, st)) ∧
    (∀ (sigVerify : List Nat → HeartbeatMessage → Bool) (now : ℚ) (hb : HeartbeatMessage)
       (st : HeartbeatState) (node : NodeInfo),
      st.nodes.lookup hb.nodeId = some node →
      hb.timestamp > now + 1 →
      processHeartbeat sigVerify now hb st = (false, st)) := by
  constructor
  · intro sv now hb st node hlookup hseq
    simp only [processHeartbeat, hlookup]
    by_cases hsig : sv node.publicKey hb
    · simp [hsig, hseq]
    · simp [hsig]
  · intro sv now hb st node hlookup hts
    simp only [processHeartbeat, hlookup]
    by_cases hsig : sv node.publicKey hb
    · by_cases hseq : hb.sequence ∈ node.sequenceSeen
      · simp [hsig, hseq]
      · simp [hsig, hseq, hts]
    · simp [hsig]

/-- A registered peer that has already accepted sequence 5. -/
def c9node : NodeInfo :=
  { nodeId := "p", publicKey := [1], region := "r", sequenceSeen := [5] }

/-- Heartbeat protocol state knowing peer p. -/
def c9st : HeartbeatState :=
  { nodeId := "me", region := "r", nodes := [("p", c9node)] }

/-- A replayed heartbeat (sequence 5 again). -/
def c9hb : HeartbeatMessage :=
  { nodeId := "p", pohSlot := 0, pohHash := [0], sequence := 5, timestamp := 0, region := "r" }

/-- A future-dated heartbeat (timestamp 10 at local time 0). -/
def c9hbFuture : HeartbeatMessage :=
  { nodeId := "p", pohSlot := 0, pohHash := [0], sequence := 6, timestamp := 10, region := "r" }

/-- Witness for C9: both the replay and the +10 s skewed heartbeat are
rejected with the state unchanged (signatures accepted throughout). -/
theorem heartbeat_replay_and_skew_rejection_witness :
    processHeartbeat (fun _ _ => true) 0 c9hb c9st = (false, c9st) ∧
    processHeartbeat (fun _ _ => true) 0 c9hbFuture c9st = (false, c9st) :=
  ⟨heartbeat_replay_and_skew_rejection.1 (fun _ _ => true) 0 c9hb c9st c9node
     (by decide) (by decide),
   heartbeat_replay_and_skew_rejection.2 (fun _ _ => true) 0 c9hbFuture c9st c9node
     (by decide) (by norm_num [c9hbFuture])⟩

end PulseChain

namespace PulseChain

/-! ### Claim C7: leader-selection determinism -/

/-- The projection of the leader table that the *choice* of leader depends
on: id order, stakes and performance scores (the stat fields
`last_leader_slot`/`consecutive_slots` never influence the choice). -/
def leaderProj (p : String × PoHLeader) : String × ℚ × ℚ :=
  (p.1, (p.2.stake, p.2.performanceScore))

/-- The cumulative-weight walk depends only on the projection. -/
theorem cumulativeSelect_congr (sp : ℚ) (l1 l2 : List (String × PoHLeader))
    (h : l1.map leaderProj = l2.map leaderProj) :
    ∀ c : ℚ, cumulativeSelect sp c l1 = cumulativeSelect sp c l2 := by
  induction l1 generalizing l2 with
  | nil =>
    cases l2 with
    | nil => intro c; rfl
    | cons q r2 => simp at h
  | cons p rest ih =>
    cases l2 with
    | nil => simp at h
    | cons q rest2 =>
      simp only [List.map_cons, List.cons.injEq] at h
      obtain ⟨hpq, hrest⟩ := h
      obtain ⟨pid, pl⟩ := p
      obtain ⟨qid, ql⟩ := q
      have h1 : pid = qid := congrArg Prod.fst hpq
      have h2 : pl.stake = ql.stake := congrArg (fun x => x.2.1) hpq
      have h3 : pl.performanceScore = ql.performanceScore := congrArg (fun x => x.2.2) hpq
      intro c
      simp only [cumulativeSelect, h1, h2, h3, ih rest2 hrest]

set_option maxRecDepth 4096 in
/-- `selectLeader` either leaves the state unchanged or applies the
chosen-leader stat mutation. -/
theorem selectLeader_state_cases (rng : Rng) (slotNumber : Nat) (st : ConsState)
    (chosen : String) (st' : ConsState)
    (h : selectLeader rng slotNumber st = .ok (chosen, st')) :
    st' = st ∨ st' = applyLeaderStats slotNumber chosen st := by
  unfold selectLeader at h
  split at h
  · left
    simp only [Except.ok.injEq, Prod.mk.injEq] at h
    exact h.2.symm
  · split at h
    · cases h
    · split at h
      · left
        simp only [Except.ok.injEq, Prod.mk.injEq] at h
        exact h.2.symm
      · split at h
        · simp only [Except.ok.injEq, Prod.mk.injEq] at h
          obtain ⟨hc, hs⟩ := h
          subst hc
          exact Or.inr hs.symm
        · left
          simp only [Except.ok.injEq, Prod.mk.injEq] at h
          exact h.2.symm

/-- The chosen leader id is a pure function of the node id, the latest pulse
hash, the slot number, the PRNG and the leader projection — so it is the
same across invocations and process restarts from the same state. -/
theorem selectLeader_fst_congr (rng : Rng) (slotNumber : Nat) (st1 st2 : ConsState)
    (hnode : st1.nodeId = st2.nodeId)
    (hhash : st1.latestPulseHash = st2.latestPulseHash)
    (hproj : st1.leaders.map leaderProj = st2.leaders.map leaderProj) :
    (selectLeader rng slotNumber st1).map Prod.fst =
      (selectLeader rng slotNumber st2).map Prod.fst := by
  have hfst : st1.leaders.map Prod.fst = st2.leaders.map Prod.fst := by
    have h1 : st1.leaders.map Prod.fst = (st1.leaders.map leaderProj).map Prod.fst := by
      simp [leaderProj, Function.comp]
    have h2 : st2.leaders.map Prod.fst = (st2.leaders.map leaderProj).map Prod.fst := by
      simp [leaderProj, Function.comp]
    rw [h1, h2, hproj]
  have hlen : st1.leaders.length = st2.leaders.length := by
    have := congrArg List.length hproj
    simpa using this
  have hw : leadersTotalWeight st1.leaders = leadersTotalWeight st2.leaders := by
    unfold leadersTotalWeight
    have h1 : (st1.leaders.map fun p => p.2.stake * p.2.performanceScore) =
        (st1.leaders.map leaderProj).map fun q => q.2.1 * q.2.2 := by
      simp [leaderProj, Function.comp]
    have h2 : (st2.leaders.map fun p => p.2.stake * p.2.performanceScore) =
        (st2.leaders.map leaderProj).map fun q => q.2.1 * q.2.2 := by
      simp [leaderProj, Function.comp]
    rw [h1, h2, hproj]
  by_cases hl : st1.leaders = []
  · have hl2 : st2.leaders = [] := by
      rw [hl] at hproj
      exact List.map_eq_nil_iff.mp hproj.symm
    simp [selectLeader, hl, hl2, hnode, Except.map]
  · have hl2 : st2.leaders ≠ [] := by
      intro hc
      rw [hc] at hproj
      exact hl (List.map_eq_nil_iff.mp hproj)
    unfold selectLeader
    rw [if_neg hl, if_neg hl2]
    cases hslot : intToLE8 (slotNumber : Int) with
    | none => rfl
    | some slotBytes =>
      have hseed : selectionSeed slotBytes st1 = selectionSeed slotBytes st2 := by
        simp [selectionSeed, hhash]
      simp only [hseed, hw]
      by_cases h0 : leadersTotalWeight st2.leaders = 0
      · simp only [if_pos h0, hfst, hlen, hnode, Except.map]
      · simp only [if_neg h0, cumulativeSelect_congr _ _ _ hproj 0]
        cases hcs : cumulativeSelect (rng.frac (selectionSeed slotBytes st2) *
            leadersTotalWeight st2.leaders) 0 st2.leaders with
        | some chosen => simp [Except.map]
        | none => simp [Except.map, hfst, hnode]

end PulseChain

namespace PulseChain

/-- Updating values under a key with a stake- and score-preserving function
leaves the leader projection unchanged. -/
theorem map_leaderProj_updateAssoc (k : String) (f : PoHLeader → PoHLeader)
    (hf : ∀ v, (f v).stake = v.stake ∧ (f v).performanceScore = v.performanceScore)
    (l : List (String × PoHLeader)) :
    (updateAssoc k f l).map leaderProj = l.map leaderProj := by
  induction l with
  | nil => rfl
  | cons p rest ih =>
    obtain ⟨k', v⟩ := p
    by_cases h : k' = k
    · simp [updateAssoc, h, leaderProj, (hf v).1, (hf v).2]
    · simp [updateAssoc, h, ih]

/-- When the chosen leader is not the current one, the stat mutation resets
the streak but keeps node id, pulse hash, current leader and the whole
leader projection. -/
theorem applyLeaderStats_not_repeat (slotNumber : Nat) (chosen : String) (st : ConsState)
    (hne : st.currentLeaderId ≠ some chosen) :
    (applyLeaderStats slotNumber chosen st).nodeId = st.nodeId ∧
    (applyLeaderStats slotNumber chosen st).latestPulseHash = st.latestPulseHash ∧
    (applyLeaderStats slotNumber chosen st).currentLeaderId = st.currentLeaderId ∧
    (applyLeaderStats slotNumber chosen st).leaders.map leaderProj =
      st.leaders.map leaderProj := by
  refine ⟨rfl, rfl, rfl, ?_⟩
  simp only [applyLeaderStats]
  rw [show (decide (st.currentLeaderId = some chosen)) = false from decide_eq_false hne]
  exact map_leaderProj_updateAssoc chosen _ (fun v => by simp [leaderStatUpdate]) st.leaders

/-- Repeated sequential invocations of `select_leader` (state threaded from
one call to the next). -/
def selectLeaderIter (rng : Rng) (slotNumber : Nat) :
    Nat → ConsState → Except String (List String × ConsState)
  | 0, st => .ok ([], st)
  | n + 1, st =>
    match selectLeader rng slotNumber st with
    | .error s => .error s
    | .ok (chosen, st') =>
      match selectLeaderIter rng slotNumber n st' with
      | .error s => .error s
      | .ok (ids, st'') => .ok (chosen :: ids, st'')

/-- **C7** (confirmed).  Leader-selection determinism: (i) the returned
leader id depends only on the node id, the latest pulse hash, the slot
number, the PRNG and the leader table's ids, stakes and performance scores —
so it is identical across invocations and across process restarts from the
same state; (ii) repeated sequential invocations (here for every n,
including n = 1000) return the same id every time whenever the chosen leader
is not the recorded current leader (the condition under which the table's
scores stay fixed, as the claim assumes — e.g. from any freshly started
node, where `current_leader_id` is `None`). -/
theorem select_leader_deterministic :
    (∀ (rng : Rng) (slotNumber : Nat) (st1 st2 : ConsState),
      st1.nodeId = st2.nodeId →
      st1.latestPulseHash = st2.latestPulseHash →
      st1.leaders.map leaderProj = st2.leaders.map leaderProj →
      (selectLeader rng slotNumber st1).map Prod.fst =
        (selectLeader rng slotNumber st2).map Prod.fst) ∧
    (∀ (rng : Rng) (slotNumber n : Nat) (st : ConsState) (chosen : String)
       (st' : ConsState),
      selectLeader rng slotNumber st = .ok (chosen, st') →
      st.currentLeaderId ≠ some chosen →
      ∃ stFin, selectLeaderIter rng slotNumber n st = .ok (List.replicate n chosen, stFin)) := by
  refine ⟨selectLeader_fst_congr, ?_⟩
  intro rng slotNumber n
  induction n with
  | zero =>
    intro st chosen st' _ _
    exact ⟨st, rfl⟩
  | succ m ih =>
    intro st chosen st' h hne
    have hprops : st'.nodeId = st.nodeId ∧ st'.latestPulseHash = st.latestPulseHash ∧
        st'.currentLeaderId = st.currentLeaderId ∧
        st'.leaders.map leaderProj = st.leaders.map leaderProj := by
      rcases selectLeader_state_cases rng slotNumber st chosen st' h with hc | hc
      · subst hc
        exact ⟨rfl, rfl, rfl, rfl⟩
      · subst hc
        exact applyLeaderStats_not_repeat slotNumber chosen st hne
    obtain ⟨hn, hh, hcur, hproj⟩ := hprops
    have hcong := selectLeader_fst_congr rng slotNumber st' st hn hh hproj
    rw [h] at hcong
    cases h2 : selectLeader rng slotNumber st' with
    | error s =>
      rw [h2] at hcong
      simp [Except.map] at hcong
    | ok p =>
      obtain ⟨c2, st2'⟩ := p
      rw [h2] at hcong
      simp only [Except.map, Except.ok.injEq] at hcong
      subst hcong
      obtain ⟨stFin, hiter⟩ := ih st' c2 st2' h2 (by rw [hcur]; exact hne)
      refine ⟨stFin, ?_⟩
      simp only [selectLeaderIter, h, hiter, List.replicate_succ]

end PulseChain

namespace PulseChain

/-- The constant-draw PRNG model used in the concrete selection scenarios
(any fixed value in `[0, 1]` plays the role of the Mersenne Twister's
seed-determined draw). -/
def c7rng : Rng := ⟨fun _ => 1/2, fun _ _ => 0⟩

/-- Scenario S3: leaders L1 and L2 with stake 100 each, performance 1.0,
latest pulse hash all zeros. -/
def c7state : ConsState :=
  registerLeader "L2" [2] "r" 100
    (registerLeader "L1" [1] "r" 100 (consInit "me" "r" (List.replicate 32 0) 0))

/-- At the S3 state the selection picks L1 (the first leader whose cumulative
weight reaches the draw) and applies the stat mutation. -/
theorem c7_select_eval :
    selectLeader c7rng 7 c7state = .ok ("L1", applyLeaderStats 7 "L1" c7state) := by
  have hld : c7state.leaders =
      [("L1", ⟨"L1", [1], "r", 100, 1, 0, 0⟩), ("L2", ⟨"L2", [2], "r", 100, 1, 0, 0⟩)] := rfl
  unfold selectLeader
  rw [hld]
  norm_num [leadersTotalWeight, cumulativeSelect, c7rng, intToLE8]
  intro hcontra
  simp at hcontra

/-- Witness for C7: three sequential invocations at slot 7 from the S3 state
all return L1. -/
theorem select_leader_deterministic_witness :
    ∃ stFin, selectLeaderIter c7rng 7 3 c7state = .ok (List.replicate 3 "L1", stFin) :=
  select_leader_deterministic.2 c7rng 7 3 c7state "L1" (applyLeaderStats 7 "L1" c7state)
    c7_select_eval (by simp [c7state, registerLeader, consInit])

end PulseChain

namespace PulseChain

/-! ### Claim C6: performance-score bounds -/

/-- The single registered leader A after `n` iterated `create_new_slot`
calls: streak and last slot equal `n`, score `0.95^(n−3)` (clamped exponent —
the decay only starts once the streak exceeds 3, and it has no lower
clamp). -/
def mkA (n : Nat) : PoHLeader :=
  ⟨"A", [1], "r", 100, ((19 : ℚ)/20)^(n - 3), n, n⟩

/-- Fresh consensus with the single leader A (stake 100). -/
def c6state0 : ConsState :=
  registerLeader "A" [1] "r" 100 (consInit "me" "r" (List.replicate 32 0) 0)

/-- Iterate `create_new_slot` (the error branch, never taken here, keeps the
state). -/
def iterCreate (rng : Rng) (now : ℚ) : Nat → ConsState → ConsState
  | 0, st => st
  | n + 1, st =>
    match createNewSlot rng now (iterCreate rng now n st) with
    | .error _ => iterCreate rng now n st
    | .ok (_, st') => st'

/-- With a single registered leader of positive weight, the selection always
returns that leader (the cumulative weight reaches any draw ≤ the total). -/
theorem c6_select_eval (slotNumber : Nat) (st : ConsState) (l : PoHLeader)
    (hld : st.leaders = [("A", l)])
    (hslot : (slotNumber : Int) < 18446744073709551616)
    (hpos : 0 < l.stake * l.performanceScore) :
    selectLeader c7rng slotNumber st = .ok ("A", applyLeaderStats slotNumber "A" st) := by
  have hle : intToLE8 (slotNumber : Int) = some (natToLE8 ((slotNumber : Int)).toNat) := by
    unfold intToLE8
    rw [if_pos ⟨Int.ofNat_nonneg slotNumber, hslot⟩]
  have htw : leadersTotalWeight [("A", l)] = l.stake * l.performanceScore := by
    simp [leadersTotalWeight]
  have hfrac : ∀ x, c7rng.frac x = 1/2 := fun _ => rfl
  have hcond : (0 : ℚ) + l.stake * l.performanceScore ≥
      c7rng.frac (selectionSeed (natToLE8 ((slotNumber : Int)).toNat) st) *
        leadersTotalWeight [("A", l)] := by
    rw [hfrac, htw]
    linarith [hpos]
  have hcs : cumulativeSelect
      (c7rng.frac (selectionSeed (natToLE8 ((slotNumber : Int)).toNat) st) *
        leadersTotalWeight [("A", l)]) 0 [("A", l)] = some "A" := by
    unfold cumulativeSelect
    rw [if_pos hcond]
  unfold selectLeader
  rw [hld]
  rw [if_neg (by simp)]
  simp only [hle, hcs]
  rw [if_neg (by rw [htw]; exact ne_of_gt hpos)]

end PulseChain

namespace PulseChain

/-- One consecutive-slot stat update sends leader A's state at step `m` to
its state at step `m + 1` (the decay multiplies once the streak exceeds
3). -/
theorem mkA_statUpdate (m : Nat) :
    leaderStatUpdate (m + 1) (!decide (m = 0)) (mkA m) = mkA (m + 1) := by
  by_cases hm : m = 0
  · subst hm
    simp [leaderStatUpdate, mkA]
  · rw [show (!decide (m = 0)) = true from by simp [hm]]
    simp only [leaderStatUpdate, if_pos rfl]
    by_cases h3 : m + 1 > 3
    · simp only [mkA, if_pos h3]
      have : ((19 : ℚ)/20)^(m - 3) * ((19 : ℚ)/20) = ((19 : ℚ)/20)^(m + 1 - 3) := by
        rw [← pow_succ]
        congr 1
        omega
      simp [this]
    · simp only [mkA, if_neg h3]
      have : (m : Nat) - 3 = m + 1 - 3 := by omega
      simp [this]

set_option maxRecDepth 4096 in
/-- Shape of the iterated-`create_new_slot` run: after `n` calls the single
leader's streak is `n` and its score is `0.95^(n−3)`. -/
theorem c6_iter_shape (n : Nat) (hn : n ≤ 1000) :
    (iterCreate c7rng 0 n c6state0).leaders = [("A", mkA n)] ∧
    (iterCreate c7rng 0 n c6state0).currentLeaderId = (if n = 0 then none else some "A") ∧
    (iterCreate c7rng 0 n c6state0).currentSlotNumber = n ∧
    (iterCreate c7rng 0 n c6state0).nodeId = "me" := by
  induction n with
  | zero =>
    refine ⟨?_, rfl, rfl, rfl⟩
    show c6state0.leaders = [("A", mkA 0)]
    norm_num [c6state0, registerLeader, consInit, setAssoc, mkA]
  | succ m ih =>
    obtain ⟨hld, hcur, hslotnum, hnode⟩ := ih (by omega)
    have hld1 : ({ iterCreate c7rng 0 m c6state0 with
        currentSlotNumber := (iterCreate c7rng 0 m c6state0).currentSlotNumber + 1 } :
        ConsState).leaders = [("A", mkA m)] := hld
    have hbound : ((iterCreate c7rng 0 m c6state0).currentSlotNumber + 1 : Int) <
        18446744073709551616 := by
      rw [show ((iterCreate c7rng 0 m c6state0).currentSlotNumber + 1 : Int) =
        (((iterCreate c7rng 0 m c6state0).currentSlotNumber + 1 : Nat) : Int) from by push_cast; ring]
      rw [hslotnum]
      exact_mod_cast (by omega : m + 1 < 18446744073709551616)
    have hpos : (0 : ℚ) < (mkA m).stake * (mkA m).performanceScore := by
      simp only [mkA]
      positivity
    have hsel := c6_select_eval ((iterCreate c7rng 0 m c6state0).currentSlotNumber + 1)
      ({ iterCreate c7rng 0 m c6state0 with
          currentSlotNumber := (iterCreate c7rng 0 m c6state0).currentSlotNumber + 1 })
      (mkA m) hld1 (by exact_mod_cast hbound) hpos
    have hrun : iterCreate c7rng 0 (m + 1) c6state0 =
        (match createNewSlot c7rng 0 (iterCreate c7rng 0 m c6state0) with
          | .error _ => iterCreate c7rng 0 m c6state0
          | .ok (_, st') => st') := rfl
    rw [hrun]
    simp only [createNewSlot, hsel, Except.bind]
    refine ⟨?_, ?_, ?_, ?_⟩
    · simp only [applyLeaderStats, hld, hcur, hslotnum]
      simp [updateAssoc, mkA_statUpdate, hcur, hslotnum]
    · simp [applyLeaderStats]
    · simp [applyLeaderStats, hslotnum]
    · simp [applyLeaderStats, hnode]

end PulseChain

namespace PulseChain

/-- **C6** (counterexample).  Seventeen consecutive `create_new_slot` calls
with a single registered leader apply the consecutive-slot decay fourteen
times with no lower clamp: the score ends at `0.95^14 < 0.5`, outside the
claimed `[0.5, 1.5]`. -/
theorem performance_score_decay_counterexample :
    ((iterCreate c7rng 0 17 c6state0).leaders.lookup "A").map PoHLeader.performanceScore =
      some (((19 : ℚ)/20)^14) ∧
    ((19 : ℚ)/20)^14 < 1/2 := by
  constructor
  · have h := (c6_iter_shape 17 (by omega)).1
    rw [h]
    norm_num [mkA, List.lookup]
  · norm_num

/-- Membership in a dict after assignment: the pair is the assigned one or
was already present. -/
theorem mem_setAssoc {κ α : Type} [DecidableEq κ] (k : κ) (v : α) (l : List (κ × α))
    (p : κ × α) (hp : p ∈ setAssoc k v l) : p.2 = v ∨ p ∈ l := by
  induction l with
  | nil =>
    simp [setAssoc] at hp
    simp [hp]
  | cons q rest ih =>
    obtain ⟨k', v'⟩ := q
    by_cases h : k' = k
    · simp only [setAssoc, if_pos h] at hp
      rcases List.mem_cons.mp hp with hq | hq
      · left
        rw [hq]
      · right
        exact List.mem_cons_of_mem _ hq
    · simp only [setAssoc, if_neg h] at hp
      rcases List.mem_cons.mp hp with hq | hq
      · right
        rw [hq]
        exact List.mem_cons_self _ _
      · rcases ih hq with hv | hm
        · left
          exact hv
        · right
          exact List.mem_cons_of_mem _ hm

/-- Membership after an in-place value update: the pair was already present
or is the updated image of a present pair. -/
theorem mem_updateAssoc {κ α : Type} [DecidableEq κ] (k : κ) (f : α → α) (l : List (κ × α))
    (p : κ × α) (hp : p ∈ updateAssoc k f l) : p ∈ l ∨ ∃ q ∈ l, p = (q.1, f q.2) := by
  induction l with
  | nil => simp [updateAssoc] at hp
  | cons q rest ih =>
    obtain ⟨k', v'⟩ := q
    by_cases h : k' = k
    · simp only [updateAssoc, if_pos h] at hp
      rcases List.mem_cons.mp hp with hq | hq
      · right
        exact ⟨(k', v'), List.mem_cons_self _ _, hq⟩
      · left
        exact List.mem_cons_of_mem _ hq
    · simp only [updateAssoc, if_neg h] at hp
      rcases List.mem_cons.mp hp with hq | hq
      · left
        rw [hq]
        exact List.mem_cons_self _ _
      · rcases ih hq with hm | ⟨r, hr, hpr⟩
        · left
          exact List.mem_cons_of_mem _ hm
        · right
          exact ⟨r, List.mem_cons_of_mem _ hr, hpr⟩

/-- The selection-loop stat update either keeps the score or multiplies it
once by 0.95. -/
theorem leaderStatUpdate_score (slotNumber : Nat) (b : Bool) (l : PoHLeader) :
    (leaderStatUpdate slotNumber b l).performanceScore = l.performanceScore ∨
    (leaderStatUpdate slotNumber b l).performanceScore = l.performanceScore * (19/20) := by
  cases b with
  | false => left; rfl
  | true =>
    by_cases h : l.consecutiveSlots + 1 > 3
    · right
      simp [leaderStatUpdate, h]
    · left
      simp [leaderStatUpdate, h]

end PulseChain

namespace PulseChain

/-- Any leader pair present after `finalize_slot` was present before, or is
a present pair whose score went through one clamped bump or penalty. -/
theorem finalize_score_mem (now : ℚ) (slotNumber : Nat) (st : ConsState)
    (p : String × PoHLeader) (hp : p ∈ ((finalizeSlot now slotNumber st).2).leaders) :
    p ∈ st.leaders ∨ ∃ q ∈ st.leaders,
      p.2.performanceScore = min (3/2) (q.2.performanceScore * (21/20)) ∨
      p.2.performanceScore = max (1/2) (q.2.performanceScore * (19/20)) := by
  unfold finalizeSlot at hp
  cases hlk : st.slots.lookup slotNumber with
  | none =>
    simp only [hlk] at hp
    exact Or.inl hp
  | some slot =>
    simp only [hlk] at hp
    by_cases hfin : slot.isFinalized = true
    · rw [if_pos hfin] at hp
      exact Or.inl hp
    · rw [if_neg hfin] at hp
      by_cases hconf : slot.confirmations.length < max 1 (st.validators.length * 2 / 3)
      · rw [if_pos hconf] at hp
        exact Or.inl hp
      · rw [if_neg hconf] at hp
        have hp2 : p ∈ finalizeLeaderTable st slot := hp
        unfold finalizeLeaderTable at hp2
        by_cases hsome : (st.leaders.lookup slot.leaderId).isSome = true
        · rw [if_pos hsome] at hp2
          rcases mem_updateAssoc _ _ _ _ hp2 with hm | ⟨q, hq, hpq⟩
          · exact Or.inl hm
          · right
            refine ⟨q, hq, ?_⟩
            have hscore : p.2.performanceScore =
                (finalizeScoreUpdate (4/5 ≤ hashQuot st slot ∧ hashQuot st slot ≤ 6/5)
                  q.2).performanceScore := by
              rw [hpq]
            rw [hscore]
            unfold finalizeScoreUpdate
            split
            · left
              rfl
            · right
              rfl
        · rw [if_neg hsome] at hp2
          exact Or.inl hp2

/-- **C6** (amended).  What the code maintains: every operation
(`register_leader`, `select_leader`, `finalize_slot`, `confirm_slot`) keeps
every registered leader's performance score within `(0, 1.5]`, and
`finalize_slot`'s bump/penalty alone keeps it within the claimed
`[0.5, 1.5]` — but `select_leader`'s consecutive-slot 0.95 decay has no
lower clamp, so the score can leave `[0.5, 1.5]` from below (see the
counterexample). -/
theorem performance_score_bounds :
    (∀ (nodeId : String) (pk : List Nat) (region : String) (stake : ℚ) (st : ConsState),
      (∀ p ∈ st.leaders, 0 < p.2.performanceScore ∧ p.2.performanceScore ≤ 3/2) →
      ∀ p ∈ (registerLeader nodeId pk region stake st).leaders,
        0 < p.2.performanceScore ∧ p.2.performanceScore ≤ 3/2) ∧
    (∀ (rng : Rng) (slotNumber : Nat) (st : ConsState) (chosen : String) (st' : ConsState),
      selectLeader rng slotNumber st = .ok (chosen, st') →
      (∀ p ∈ st.leaders, 0 < p.2.performanceScore ∧ p.2.performanceScore ≤ 3/2) →
      ∀ p ∈ st'.leaders, 0 < p.2.performanceScore ∧ p.2.performanceScore ≤ 3/2) ∧
    (∀ (now : ℚ) (slotNumber : Nat) (st : ConsState),
      (∀ p ∈ st.leaders, 0 < p.2.performanceScore ∧ p.2.performanceScore ≤ 3/2) →
      ∀ p ∈ ((finalizeSlot now slotNumber st).2).leaders,
        0 < p.2.performanceScore ∧ p.2.performanceScore ≤ 3/2) ∧
    (∀ (now : ℚ) (slotNumber : Nat) (st : ConsState),
      (∀ p ∈ st.leaders, 1/2 ≤ p.2.performanceScore ∧ p.2.performanceScore ≤ 3/2) →
      ∀ p ∈ ((finalizeSlot now slotNumber st).2).leaders,
        1/2 ≤ p.2.performanceScore ∧ p.2.performanceScore ≤ 3/2) ∧
    (∀ (now : ℚ) (slotNumber : Nat) (vid : String) (st : ConsState),
      (∀ p ∈ st.leaders, 0 < p.2.performanceScore ∧ p.2.performanceScore ≤ 3/2) →
      ∀ p ∈ ((confirmSlot now slotNumber vid st).2).leaders,
        0 < p.2.performanceScore ∧ p.2.performanceScore ≤ 3/2) := by
  have hfin : ∀ (now : ℚ) (slotNumber : Nat) (st : ConsState),
      (∀ p ∈ st.leaders, 0 < p.2.performanceScore ∧ p.2.performanceScore ≤ 3/2) →
      ∀ p ∈ ((finalizeSlot now slotNumber st).2).leaders,
        0 < p.2.performanceScore ∧ p.2.performanceScore ≤ 3/2 := by
    intro now slotNumber st hinv p hp
    rcases finalize_score_mem now slotNumber st p hp with hm | ⟨q, hq, hs | hs⟩
    · exact hinv p hm
    · obtain ⟨hq1, hq2⟩ := hinv q hq
      rw [hs]
      constructor
      · exact lt_min (by norm_num) (by nlinarith)
      · exact min_le_left _ _
    · obtain ⟨hq1, hq2⟩ := hinv q hq
      rw [hs]
      constructor
      · exact lt_of_lt_of_le (by norm_num) (le_max_left _ _)
      · exact max_le (by norm_num) (by nlinarith)
  refine ⟨?_, ?_, hfin, ?_, ?_⟩
  · intro nodeId pk region stake st hinv p hp
    rcases mem_setAssoc _ _ _ _ hp with hv | hm
    · rw [hv]
      norm_num
    · exact hinv p hm
  · intro rng slotNumber st chosen st' h hinv p hp
    rcases selectLeader_state_cases rng slotNumber st chosen st' h with hc | hc
    · subst hc
      exact hinv p hp
    · subst hc
      simp only [applyLeaderStats] at hp
      rcases mem_updateAssoc _ _ _ _ hp with hm | ⟨q, hq, hpq⟩
      · exact hinv p hm
      · obtain ⟨hq1, hq2⟩ := hinv q hq
        have hscore : p.2.performanceScore =
            (leaderStatUpdate slotNumber (decide (st.currentLeaderId = some chosen))
              q.2).performanceScore := by
          rw [hpq]
        rcases leaderStatUpdate_score slotNumber
            (decide (st.currentLeaderId = some chosen)) q.2 with hs | hs
        · rw [hscore, hs]
          exact ⟨hq1, hq2⟩
        · rw [hscore, hs]
          constructor
          · nlinarith
          · nlinarith
  · intro now slotNumber st hinv p hp
    rcases finalize_score_mem now slotNumber st p hp with hm | ⟨q, hq, hs | hs⟩
    · exact hinv p hm
    · obtain ⟨hq1, hq2⟩ := hinv q hq
      rw [hs]
      constructor
      · exact le_min (by norm_num) (by nlinarith)
      · exact min_le_left _ _
    · obtain ⟨hq1, hq2⟩ := hinv q hq
      rw [hs]
      constructor
      · exact le_max_left _ _
      · exact max_le (by norm_num) (by nlinarith)
  · intro now slotNumber vid st hinv p hp
    unfold confirmSlot at hp
    cases hlk : st.slots.lookup slotNumber with
    | none =>
      simp only [hlk] at hp
      exact hinv p hp
    | some slot =>
      simp only [hlk] at hp
      by_cases hfin2 : slot.isFinalized = true
      · rw [if_pos hfin2] at hp
        exact hinv p hp
      · rw [if_neg hfin2] at hp
        have hstep := hfin now slotNumber
          { st with slots := setAssoc slotNumber { slot with confirmations := addToSet vid slot.confirmations } st.slots }
          (fun r hr => hinv r hr) p
        exact hstep hp

end PulseChain

namespace PulseChain

/-- Leader L1's entry after the witness selection step (streak reset to 1,
score untouched). -/
def c6wPair : String × PoHLeader :=
  ("L1", ⟨"L1", [1], "r", 100, 1, 7, 1⟩)

/-- Witness for the amended C6 theorem: after a concrete `select_leader`
call from the two-leader state, the updated L1 entry keeps its score inside
`(0, 1.5]`. -/
theorem performance_score_bounds_witness :
    0 < c6wPair.2.performanceScore ∧ c6wPair.2.performanceScore ≤ 3/2 :=
  performance_score_bounds.2.1 c7rng 7 c7state "L1" (applyLeaderStats 7 "L1" c7state)
    c7_select_eval
    (by
      intro p hp
      have h : c7state.leaders =
          [("L1", ⟨"L1", [1], "r", 100, 1, 0, 0⟩), ("L2", ⟨"L2", [2], "r", 100, 1, 0, 0⟩)] := rfl
      rw [h] at hp
      rcases List.mem_cons.mp hp with hp1 | hp2
      · rw [hp1]
        norm_num
      · rcases List.mem_cons.mp hp2 with hp3 | hp4
        · rw [hp3]
          norm_num
        · cases hp4)
    c6wPair (by decide)

end PulseChain

namespace PulseChain

/-! ### Claim C2: the `poh_chain` handler -/

/-- Region graph for the `poh_chain` scenario: primary region `R1`,
connected to `R2`. -/
def c2rm : RegionGraph :=
  { primaryRegion := "R1", regions := [("R1", ["R2"]), ("R2", ["R1"])] }

/-- Sync-plane state for the scenario: fresh consensus and generator state
behind the graph `c2rm`. -/
def c2st : SyncState :=
  { rm := c2rm
    cons := consInit "me" "R1" genInit.lastHash genInit.counter
    gen := genInit }

/-- A `poh_chain` message from `R2` to `R1` carrying the valid one-link
chain `[c3link1]`. -/
def c2msg : SyncMessage :=
  { sourceRegion := "R2"
    targetRegion := "R1"
    messageType := "poh_chain"
    data := { chain := some [c3link1] }
    timestamp := 0
    messageId := "m1" }

/-- On a `poh_chain` message that passes the dedup, target, connectivity and
freshness checks, `process_message` reduces to acceptance plus the dedup
bookkeeping: `_handle_poh_chain` is the identity on the tracked state. -/
theorem processMessage_poh_chain_eq (now : ℚ) (newMsgId : String) (msg : SyncMessage)
    (st : SyncState)
    (htype : msg.messageType = "poh_chain")
    (hdup : msg.messageId ∉ st.processedMessageIds)
    (htarget : msg.targetRegion = st.rm.primaryRegion)
    (hsource : msg.sourceRegion ∈ getConnectedRegions st.rm msg.targetRegion)
    (hfresh : ¬ now - msg.timestamp > 60) :
    processMessage now newMsgId msg st =
      (true, { st with processedMessageIds := dedupAppend st.processedMessageIds msg.messageId }) := by
  rw [htarget] at hsource
  simp +decide [processMessage, handlePohChain, htype, hdup, htarget, hsource, hfresh]

/-- **C2** (corrected): for every sync message of type `poh_chain` that
passes the dedup, target, connectivity and freshness checks,
`process_message` accepts it, but the handler is a stub that only logs the
received chain: the pulse generator's `import_chain` is never invoked and
nothing is merged — the generator state, the consensus state (hence every
locally finalized slot, trivially undemoted), the region graph and the
outgoing queue are returned unchanged, and only the processed-id dedup set
grows by the message id. -/
theorem poh_chain_handler_logs_only (now : ℚ) (newMsgId : String) (msg : SyncMessage)
    (st : SyncState)
    (htype : msg.messageType = "poh_chain")
    (hdup : msg.messageId ∉ st.processedMessageIds)
    (htarget : msg.targetRegion = st.rm.primaryRegion)
    (hsource : msg.sourceRegion ∈ getConnectedRegions st.rm msg.targetRegion)
    (hfresh : ¬ now - msg.timestamp > 60) :
    (processMessage now newMsgId msg st).1 = true ∧
    (processMessage now newMsgId msg st).2.gen = st.gen ∧
    (processMessage now newMsgId msg st).2.cons = st.cons ∧
    (processMessage now newMsgId msg st).2.rm = st.rm ∧
    (processMessage now newMsgId msg st).2.outgoing = st.outgoing ∧
    (processMessage now newMsgId msg st).2.processedMessageIds =
      dedupAppend st.processedMessageIds msg.messageId := by
  have h := processMessage_poh_chain_eq now newMsgId msg st htype hdup htarget hsource hfresh
  rw [h]
  exact ⟨rfl, rfl, rfl, rfl, rfl, rfl⟩

/-- **C2** counterexample: the concrete message `c2msg` (type `poh_chain`,
fresh id, addressed to the primary region `R1` from the connected region
`R2`, zero age) carries the valid one-link chain `[c3link1]`, which
`import_chain` itself accepts and which would advance the generator counter
— yet `process_message` accepts the message while leaving the generator
state and the slot table untouched: the carried chain is neither validated
via `import_chain` nor merged. -/
theorem poh_chain_no_import_counterexample :
    (processMessage 0 "fresh" c2msg c2st).1 = true ∧
    (processMessage 0 "fresh" c2msg c2st).2.gen = c2st.gen ∧
    (processMessage 0 "fresh" c2msg c2st).2.cons.slots = c2st.cons.slots ∧
    (importChain [c3link1] c2st.gen).1 = true ∧
    (importChain [c3link1] c2st.gen).2.counter ≠ c2st.gen.counter := by
  have h := processMessage_poh_chain_eq 0 "fresh" c2msg c2st rfl (by decide) rfl (by decide)
    (by norm_num [c2msg])
  refine ⟨by rw [h], by rw [h], by rw [h], by decide, by decide⟩

/-- Witness for `poh_chain_handler_logs_only` at the concrete scenario
message `c2msg`. -/
theorem poh_chain_handler_logs_only_witness :
    (processMessage 0 "fresh" c2msg c2st).1 = true ∧
    (processMessage 0 "fresh" c2msg c2st).2.gen = c2st.gen ∧
    (processMessage 0 "fresh" c2msg c2st).2.cons = c2st.cons ∧
    (processMessage 0 "fresh" c2msg c2st).2.rm = c2st.rm ∧
    (processMessage 0 "fresh" c2msg c2st).2.outgoing = c2st.outgoing ∧
    (processMessage 0 "fresh" c2msg c2st).2.processedMessageIds =
      dedupAppend c2st.processedMessageIds c2msg.messageId :=
  poh_chain_handler_logs_only 0 "fresh" c2msg c2st rfl (by decide) rfl (by decide)
    (by norm_num [c2msg])

end PulseChain
